import Mathlib

/-!
Shallow embedding of the npmjs-mcp-server core (src/unnamed/part_000, the
complete draft of src/src/index.ts): registry-response normalizers, the
registry fetch error classifier, the download aggregator, and the npm_audit
and simulate_npm_audit_fix tool-handler cases.

Modelling conventions:
* JavaScript objects with a fixed field set become structures; optional or
  possibly-absent fields become `Option`.
* JavaScript dictionary objects (the time mapping, severity buckets, the
  vulnerability map) become association lists `List (String × _)`; a JS
  object's keys are unique, and property lookup is `List.lookup`.
* JavaScript string truthiness (`undefined`, `null` and `""` are falsy) is
  `truthyStr`; `a || b` on strings is `jsOrString`.
* Network and subprocess effects are parameters: the axios outcome, the
  `execSync` outcome and `JSON.parse` are passed in as data/functions, and the
  handler cases return the number of subprocess invocations alongside the
  result so that "no subprocess was run" is expressible.
* JS strings are modelled at the code-point level (`List Char`), the
  U+2028 and U+2029 separators included among line terminators for regex `.` semantics.
-/

/-- JS string truthiness on an optional string: `undefined`/absent and the
empty string are falsy. -/
def truthyStr : Option String → Option String
  | some s => if s = "" then none else some s
  | none => none

/-- JS `a || b` for optional strings: first truthy operand, else none. -/
def jsOrString (a b : Option String) : Option String :=
  match truthyStr a with
  | some s => some s
  | none => truthyStr b

/-- A raw JSON value as far as the defensive `typeof` checks in the source
distinguish shapes: a string, a number, a boolean, null, or anything else. -/
inductive JsVal where
  | str (s : String)
  | num (n : Int)
  | boolean (b : Bool)
  | nullVal
  | otherVal
deriving DecidableEq

/-- The `typeof x === 'string'` check on a possibly-absent value. -/
def asString : Option JsVal → Option String
  | some (.str s) => some s
  | _ => none

/-- The `typeof x === 'boolean'` check on a possibly-absent value. -/
def asBool : Option JsVal → Option Bool
  | some (.boolean b) => some b
  | _ => none

/-- The license field of a registry record: a plain string or an object whose
`type` and `url` fields may each be absent (the TS interface promises `type`
but the code defends against its absence via truthiness). -/
inductive LicenseVal where
  | str (s : String)
  | obj (type : Option String) (url : Option String)
deriving DecidableEq

/-- A repository descriptor as fetched: `{ type, url }`. -/
structure RepositoryInfo where
  type : String
  url : String
deriving DecidableEq

/-- The raw registry record `NpmRegistryPackageInfo`. `distTagsLatest` is
`rawData['dist-tags']?.latest`; `time` is the version-to-ISO-date mapping. -/
structure NpmRegistryPackageInfo where
  name : String
  distTagsLatest : Option String
  description : Option String
  time : Option (List (String × String))
  license : Option LicenseVal
  homepage : Option String
  repository : Option RepositoryInfo
  maintainers : Option (List (String × String))
  keywords : Option (List String)
deriving DecidableEq

/-- The caller-facing summary shape `McpSummaryData`. -/
structure McpSummaryData where
  name : String
  latestVersion : String
  description : Option String
  publishDateLatest : Option String
  license : Option String
  homepage : Option String
  repository : Option String
  source : String
deriving DecidableEq

/-- JS line terminators, the characters `.` does not match in a regex without
the `s` flag. -/
def isJsLineTerminator (c : Char) : Bool :=
  c = '\n' || c = '\r' || c = '\u2028' || c = '\u2029'

/-- Consume a nonempty run of ASCII digits (`\d+`), returning the rest. -/
def chompDigits (l : List Char) : Option (List Char) :=
  if (l.takeWhile Char.isDigit).isEmpty then none else some (l.dropWhile Char.isDigit)

/-- Match the optional tail `([-.].*)?$` of the version pattern: empty, or a
`-` or `.` followed by characters none of which is a line terminator. -/
def versionSuffixOk : List Char → Bool
  | [] => true
  | c :: cs => (c = '-' || c = '.') && cs.all (fun x => !isJsLineTerminator x)

/-- The JS regex test `/^\d+\.\d+\.\d+([-.].*)?$/.test(key)`. Greedy digit
consumption is equivalent to the backtracking semantics here, because after a
maximal digit run the next pattern element (`\.`, `[-.]` or end) can never
match a digit given back. -/
def matchesVersionPattern (s : String) : Bool :=
  match chompDigits s.data with
  | none => false
  | some rest1 =>
    match rest1 with
    | '.' :: rest2 =>
      match chompDigits rest2 with
      | none => false
      | some rest3 =>
        match rest3 with
        | '.' :: rest4 =>
          match chompDigits rest4 with
          | none => false
          | some rest5 => versionSuffixOk rest5
        | _ => false
    | _ => false

/-- Strip one leading `git+` and one trailing `.git` from a repository URL,
as `url.replace(/^git\+/, '').replace(/\.git$/, '')` does. -/
def normalizeRepositoryUrl (u : String) : String :=
  let u1 := if u.startsWith "git+" then u.drop 4 else u
  if u1.endsWith ".git" then u1.dropRight 4 else u1

/-- The normalizer `transformDataForSummary`: latest version falls back to
the sentinel under JS truthiness, the publish date requires a truthy latest
tag, a present time mapping and a truthy looked-up date, the license is
normalized by shape, and the repository URL is cleaned when truthy. -/
def transformDataForSummary (rawData : NpmRegistryPackageInfo)
    (sourceUrl : String) : McpSummaryData :=
  let latestVersion := rawData.distTagsLatest
  let publishDateLatest : Option String :=
    match truthyStr latestVersion, rawData.time with
    | some lv, some t => truthyStr (t.lookup lv)
    | _, _ => none
  let licenseString : Option String :=
    match rawData.license with
    | some (.str s) => some s
    | some (.obj ty _) => truthyStr ty
    | none => none
  let repositoryUrl : Option String :=
    (rawData.repository.bind (fun r => truthyStr (some r.url))).map
      normalizeRepositoryUrl
  { name := rawData.name
    latestVersion := (truthyStr latestVersion).getD "N/A"
    description := rawData.description
    publishDateLatest := publishDateLatest
    license := licenseString
    homepage := rawData.homepage
    repository := repositoryUrl
    source := sourceUrl }

/-- The caller-facing versions shape `McpVersionsData`. -/
structure McpVersionsData where
  versions : List (String × String)
  source : String
deriving DecidableEq

/-- The normalizer `transformDataForVersions`: copy into the result exactly
the own entries of the time mapping whose key passes the version pattern (the
`for … in` loop over a JS object, whose keys are unique, is a filter that
preserves entries and their order). -/
def transformDataForVersions (rawData : NpmRegistryPackageInfo)
    (sourceUrl : String) : McpVersionsData :=
  { versions := (rawData.time.getD []).filter (fun kv => matchesVersionPattern kv.1)
    source := sourceUrl }

/-- The base URL constant of the downloads endpoint. -/
def NPM_DOWNLOADS_API_BASE : String := "https://api.npmjs.org/downloads/point"

/-- How an axios GET against the registry settles, as the catch branch of
`fetchPackageData` distinguishes outcomes: a parsed record, an error with a
response (carrying its HTTP status), an error with a request but no response,
or a failure before the request was dispatched (carrying its message). -/
inductive FetchOutcome where
  | success (data : NpmRegistryPackageInfo)
  | errorResponse (status : Nat)
  | errorRequest
  | errorSetup (message : String)

/-- The error class `NpmApiError`: message, optional HTTP status, optional
machine-readable code string. -/
structure NpmApiError where
  message : String
  statusCode : Option Nat
  code : Option String
deriving DecidableEq

/-- The registry fetch `fetchPackageData`, with `decode` standing for the JS
builtin `decodeURIComponent` and the network outcome passed as data. Every
failure is classified into one of four distinctly coded `NpmApiError`s. -/
def fetchPackageData (decode : String → String) (encodedPackageName : String) :
    FetchOutcome → Except NpmApiError NpmRegistryPackageInfo
  | .success d => .ok d
  | .errorResponse status =>
    if status = 404 then
      .error { message := "Package '" ++ decode encodedPackageName ++ "' not found on npmjs."
               statusCode := some 404
               code := some "NPM_PKG_NOT_FOUND" }
    else
      .error { message := "Failed to fetch package data from NPM Registry. Status: " ++ toString status
               statusCode := some status
               code := some "NPM_API_ERROR" }
  | .errorRequest =>
    .error { message := "No response received from NPM Registry while fetching package data."
             statusCode := none
             code := some "NPM_API_NO_RESPONSE" }
  | .errorSetup msg =>
    .error { message := "Error fetching package data: " ++ msg
             statusCode := none
             code := some "NPM_API_REQUEST_SETUP_ERROR" }

/-- The caller-facing downloads shape `McpDownloadsData`; `downloads` holds
only the periods that resolved to a number. -/
structure McpDownloadsData where
  downloads : List (String × Nat)
  package : String
  source : String
deriving DecidableEq

/-- The periods `fetchPackageDownloads` fetches: the requested one alone, or
the three defaults. -/
def periodsToFetch (requestedPeriod : Option String) : List String :=
  match requestedPeriod with
  | some p => [p]
  | none => ["last-day", "last-week", "last-month"]

/-- The download aggregator `fetchPackageDownloads`. `fetchSingle` stands for
`fetchSinglePeriodDownloads`, which settles every fetch to a count or to null
(it catches every failure); `downloadResults` records each settled outcome and
`finalDownloads` keeps exactly the entries that are neither null nor absent.
The aggregator itself is total: it never fails. -/
def fetchPackageDownloads (fetchSingle : String → Option Nat)
    (decode : String → String) (encodedPackageName : String)
    (requestedPeriod : Option String) : McpDownloadsData :=
  let downloadResults : List (String × Option Nat) :=
    (periodsToFetch requestedPeriod).map (fun p => (p, fetchSingle p))
  let finalDownloads : List (String × Nat) :=
    match requestedPeriod with
    | some p =>
      match downloadResults.lookup p with
      | some (some n) => [(p, n)]
      | _ => []
    | none =>
      (match downloadResults.lookup "last-day" with
        | some (some n) => [("last-day", n)]
        | _ => []) ++
      (match downloadResults.lookup "last-week" with
        | some (some n) => [("last-week", n)]
        | _ => []) ++
      (match downloadResults.lookup "last-month" with
        | some (some n) => [("last-month", n)]
        | _ => [])
  { downloads := finalDownloads
    package := decode encodedPackageName
    source := NPM_DOWNLOADS_API_BASE }

/-- How an `execSync` call settles: normal exit with its stdout, or a thrown
error carrying possibly-absent `stdout` and `stderr` fields and a message. -/
inductive ExecOutcome where
  | success (stdout : String)
  | failure (stdout : Option String) (stderr : Option String) (message : String)

/-- One value of the raw audit report's per-package vulnerability map
(`RawAuditVulnerabilityValue`): every field may be absent. -/
structure RawAuditVulnerabilityValue where
  name : Option String
  installed : Option String
  version : Option String
  severity : Option String
  url : Option String
deriving DecidableEq

/-- The `metadata` object of a parsed audit report; `vulnerabilities` is the
severity-bucket count mapping, each count possibly absent. -/
structure AuditMetadata where
  vulnerabilities : Option (List (String × Option Nat))
  auditReportCreatedAt : Option String
  npmVersion : Option String
  nodeVersion : Option String
deriving DecidableEq

/-- A parsed `npm audit --json` report, to the depth the handler reads it. -/
structure AuditJson where
  metadata : Option AuditMetadata
  vulnerabilities : Option (List (String × RawAuditVulnerabilityValue))
deriving DecidableEq

/-- A flattened vulnerability entry `NpmAuditVulnerabilityEntry`. -/
structure NpmAuditVulnerabilityEntry where
  package : String
  version : String
  severity : String
  advisoryUrl : Option String
deriving DecidableEq

/-- The severity summary `NpmAuditOverallSummary`: the computed total plus
the raw bucket mapping carried over verbatim. -/
structure NpmAuditOverallSummary where
  totalVulnerabilities : Nat
  bySeverity : List (String × Option Nat)
deriving DecidableEq

/-- The audit tool result `McpNpmAuditResult`. -/
structure McpNpmAuditResult where
  auditRunDate : String
  npmVersion : String
  nodeVersion : String
  summary : NpmAuditOverallSummary
  vulnerabilities : List NpmAuditVulnerabilityEntry
  rawAuditReport : AuditJson
deriving DecidableEq

/-- Flatten one entry of the per-package vulnerability map: the map's key is
the package name, `installed || version || ''` picks the version,
`severity || 'unknown'` the severity, and `url || undefined` the advisory. -/
def flattenVulnerability (pkgName : String) (vulnDetails : RawAuditVulnerabilityValue) :
    NpmAuditVulnerabilityEntry :=
  { package := pkgName
    version := (jsOrString vulnDetails.installed vulnDetails.version).getD ""
    severity := (truthyStr vulnDetails.severity).getD "unknown"
    advisoryUrl := truthyStr vulnDetails.url }

/-- The environment the `npm_audit` handler case runs against: whether
`fs.existsSync` finds the lock file, how `execSync('npm audit --json')`
settles, what `JSON.parse` makes of a string, and the current timestamp. -/
structure AuditEnv where
  lockfileExists : Bool
  execOutcome : ExecOutcome
  parse : String → Except String AuditJson
  now : String

/-- The precondition message thrown when `package-lock.json` is missing; the
two handler cases differ only in the leading command name. -/
def lockfileMissingMessage (command projectPath : String) : String :=
  command ++ " requires a package-lock.json file in the target directory '" ++
    projectPath ++
    "'. Please run 'npm install' or 'npm i --package-lock-only' in that directory first."

/-- The `npm_audit` case of the CallTool handler, from the lock-file guard to
the assembled result. The second component counts `execSync` invocations, so
that failing before any subprocess runs is expressible. A failed exec whose
thrown error still carries truthy stdout is recovered; JSON parse failure is
reported with its own fixed message. -/
def npmAuditCase (env : AuditEnv) (projectPath : String) :
    Except String McpNpmAuditResult × Nat :=
  if !env.lockfileExists then
    (.error (lockfileMissingMessage "npm audit" projectPath), 0)
  else
    let rawResult : Except String String :=
      match env.execOutcome with
      | .success out => .ok out
      | .failure stdout _ msg =>
        match truthyStr stdout with
        | some out => .ok out
        | none => .error ("Failed to run 'npm audit --json' in " ++ projectPath ++ ": " ++ msg)
    match rawResult with
    | .error e => (.error e, 1)
    | .ok auditRaw =>
      match env.parse auditRaw with
      | .error _ =>
        (.error ("Failed to parse npm audit JSON output from " ++ projectPath ++ "."), 1)
      | .ok auditJson =>
        let rawSeveritySummary :=
          (auditJson.metadata.bind AuditMetadata.vulnerabilities).getD []
        let summary : NpmAuditOverallSummary :=
          { totalVulnerabilities :=
              rawSeveritySummary.foldl (fun acc kv => acc + kv.2.getD 0) 0
            bySeverity := rawSeveritySummary }
        let vulnerabilities :=
          (auditJson.vulnerabilities.getD []).map
            (fun kv => flattenVulnerability kv.1 kv.2)
        (.ok { auditRunDate :=
                 (truthyStr (auditJson.metadata.bind AuditMetadata.auditReportCreatedAt)).getD env.now
               npmVersion :=
                 (truthyStr (auditJson.metadata.bind AuditMetadata.npmVersion)).getD ""
               nodeVersion :=
                 (truthyStr (auditJson.metadata.bind AuditMetadata.nodeVersion)).getD ""
               summary := summary
               vulnerabilities := vulnerabilities
               rawAuditReport := auditJson }, 1)

/-- One element of a raw action's `resolves` array, to the depth the handler
reads it: its `from` and `path` fields (named `fromVal`/`pathVal` here since
`from` is a Lean keyword), each an arbitrary possibly-absent JSON value. -/
structure RawResolveEntry where
  fromVal : Option JsVal
  pathVal : Option JsVal
deriving DecidableEq

/-- One raw action of a parsed `npm audit fix --dry-run --json` output: every
field may be absent or of an unexpected type; array elements of `resolves`
may themselves be null (falsy), hence `Option RawResolveEntry`. -/
structure RawFixAction where
  action : Option JsVal
  module : Option JsVal
  name : Option JsVal
  target : Option JsVal
  isMajor : Option JsVal
  resolves : Option (List (Option RawResolveEntry))
deriving DecidableEq

/-- The guard `action.resolves && Array.isArray(...) && length > 0 &&
action.resolves[0]`: the first resolves entry, when the array is present,
nonempty and its head truthy. -/
def firstResolve (a : RawFixAction) : Option RawResolveEntry :=
  match a.resolves with
  | some (some r :: _) => some r
  | _ => none

/-- A normalized fix action `NpmAuditFixAction`: `action` and `name` are
plain strings (always present), the rest optional. -/
structure NpmAuditFixAction where
  action : String
  name : String
  version : Option String
  oldVersion : Option String
  isMajor : Option Bool
  path : Option String
deriving DecidableEq

/-- The defensive per-action mapping in the `simulate_npm_audit_fix` case:
a non-string `action` becomes the literal "unknown" (else it is lower-cased,
JS `toLowerCase` modelled by `String.toLower`); `name` prefers a string
`module` field, falls back to a string `name` field, else "unknown"; the
remaining fields are kept only when present with the expected type. -/
def normalizeFixAction (a : RawFixAction) : NpmAuditFixAction :=
  { action :=
      match asString a.action with
      | some s => s.toLower
      | none => "unknown"
    name :=
      match asString a.module with
      | some s => s
      | none =>
        match asString a.name with
        | some s => s
        | none => "unknown"
    version := asString a.target
    oldVersion := (firstResolve a).bind (fun r => asString r.fromVal)
    isMajor := asBool a.isMajor
    path := (firstResolve a).bind (fun r => asString r.pathVal) }

/-- The `metadata` object of a parsed fix-simulation output. -/
structure SimMetadata where
  npmVersion : Option String
  nodeVersion : Option String
deriving DecidableEq

/-- A parsed fix-simulation output, to the depth the handler reads it; the
count fields may be absent (`x || 0` defaults them). -/
structure SimulationJson where
  actions : Option (List RawFixAction)
  added : Option Nat
  removed : Option Nat
  changed : Option Nat
  audited : Option Nat
  funding : Option Nat
  metadata : Option SimMetadata
deriving DecidableEq

/-- The counts summary `NpmAuditFixSummary`. -/
structure NpmAuditFixSummary where
  added : Nat
  removed : Nat
  changed : Nat
  audited : Nat
  funding : Nat
deriving DecidableEq

/-- The fix-simulation tool result `McpSimulateAuditFixResult`. -/
structure McpSimulateAuditFixResult where
  simulationRunDate : String
  npmVersion : String
  nodeVersion : String
  summary : NpmAuditFixSummary
  actions : List NpmAuditFixAction
  rawSimulationOutput : SimulationJson
deriving DecidableEq

/-- Index of the first opening curly brace in a string, as JS
`simulationRaw.indexOf` of that character (none standing for -1). -/
def firstBraceIndex (s : String) : Option Nat :=
  s.data.findIdx? (fun c => c = '{')

/-- JS `s.substring(i)`: the characters from index `i` on. -/
def jsSubstringFrom (s : String) (i : Nat) : String :=
  String.mk (s.data.drop i)

/-- JS `s.substring(0, n)`: the first `n` characters. -/
def jsSubstringTo (s : String) (n : Nat) : String :=
  String.mk (s.data.take n)

/-- The fix-simulation parse step: inside the try block, a missing opening
brace throws an error whose message embeds the whole raw output, and
otherwise `parse` (standing for `JSON.parse`) runs on the substring from the
first brace; the catch block wraps any thrown message, appending the first
500 characters of the raw output as a fragment. -/
def parseSimulationOutput (parse : String → Except String SimulationJson)
    (projectPath simulationRaw : String) : Except String SimulationJson :=
  let inner : Except String SimulationJson :=
    match firstBraceIndex simulationRaw with
    | none =>
      .error ("Could not find start of JSON object in npm audit fix --dry-run output from " ++
        projectPath ++ ". Raw output: " ++ simulationRaw)
    | some i => parse (jsSubstringFrom simulationRaw i)
  match inner with
  | .ok v => .ok v
  | .error m =>
    .error ("Failed to parse npm audit fix --dry-run JSON output from " ++ projectPath ++
      ". Error: " ++ m ++ ". Raw output fragment: " ++
      jsSubstringTo simulationRaw 500 ++ "...")

/-- The environment the `simulate_npm_audit_fix` handler case runs against,
analogous to `AuditEnv`. -/
structure FixSimEnv where
  lockfileExists : Bool
  execOutcome : ExecOutcome
  parse : String → Except String SimulationJson
  now : String

/-- The `simulate_npm_audit_fix` case of the CallTool handler, from the
lock-file guard to the assembled result, counting `execSync` invocations in
the second component. -/
def simulateNpmAuditFixCase (env : FixSimEnv) (projectPath : String) :
    Except String McpSimulateAuditFixResult × Nat :=
  if !env.lockfileExists then
    (.error (lockfileMissingMessage "npm audit fix" projectPath), 0)
  else
    let rawResult : Except String String :=
      match env.execOutcome with
      | .success out => .ok out
      | .failure stdout stderr msg =>
        match truthyStr stdout with
        | some out => .ok out
        | none =>
          .error ("Failed to run 'npm audit fix --dry-run --json' in " ++ projectPath ++
            ": " ++ msg ++ ". Stderr: " ++ (truthyStr stderr).getD "(no stderr)")
    match rawResult with
    | .error e => (.error e, 1)
    | .ok simulationRaw =>
      match parseSimulationOutput env.parse projectPath simulationRaw with
      | .error e => (.error e, 1)
      | .ok simulationJson =>
        let actions := (simulationJson.actions.getD []).map normalizeFixAction
        let summary : NpmAuditFixSummary :=
          { added := simulationJson.added.getD 0
            removed := simulationJson.removed.getD 0
            changed := simulationJson.changed.getD 0
            audited := simulationJson.audited.getD 0
            funding := simulationJson.funding.getD 0 }
        (.ok { simulationRunDate := env.now
               npmVersion :=
                 (truthyStr (simulationJson.metadata.bind SimMetadata.npmVersion)).getD ""
               nodeVersion :=
                 (truthyStr (simulationJson.metadata.bind SimMetadata.nodeVersion)).getD ""
               summary := summary
               actions := actions
               rawSimulationOutput := simulationJson }, 1)

/-- C1: for every registry record and every key of its time mapping, the
versions result of `transformDataForVersions` contains the pair (key,
timestamp) if and only if the key matches `^\d+\.\d+\.\d+([-.].*)?$`; thus
non-matching keys such as "created" and "modified" are dropped silently and
every included key keeps the timestamp it has in the source mapping. -/
theorem transformDataForVersions_mem_iff
    (rawData : NpmRegistryPackageInfo) (sourceUrl k v : String) :
    (k, v) ∈ (transformDataForVersions rawData sourceUrl).versions ↔
      ((k, v) ∈ rawData.time.getD [] ∧ matchesVersionPattern k = true) := by
  simp [transformDataForVersions, List.mem_filter]

/-- A registry record whose time mapping maps the latest tag to the empty
string: a concrete input separating presence of a time entry from truthiness
of its value. -/
def recordEmptyDate : NpmRegistryPackageInfo :=
  { name := "pkg"
    distTagsLatest := some "1.0.0"
    description := none
    time := some [("1.0.0", "")]
    license := none
    homepage := none
    repository := none
    maintainers := none
    keywords := none }

/-- C7 counterexample: the claimed equivalence "publishDateLatest is present
iff the time mapping contains an entry keyed by the resolved latest version"
fails on `recordEmptyDate`: the time mapping does contain an entry keyed by
the resolved latest version "1.0.0", yet `transformDataForSummary` omits
`publishDateLatest`, because the code tests the looked-up value for JS
truthiness and the empty-string timestamp is falsy. -/
theorem transformDataForSummary_publishDate_counterexample :
    ¬((transformDataForSummary recordEmptyDate "u").publishDateLatest.isSome ↔
      (((recordEmptyDate.time.getD []).lookup
          ((transformDataForSummary recordEmptyDate "u").latestVersion)).isSome)) := by
  decide

/-- C7 amended: with no dist-tags latest entry, `transformDataForSummary`
yields the sentinel "N/A" and omits `publishDateLatest`; in general
`publishDateLatest` is present if and only if the latest dist-tag is present
and non-empty and the time mapping maps it to a non-empty timestamp. -/
theorem transformDataForSummary_latest_publishDate
    (rawData : NpmRegistryPackageInfo) (sourceUrl : String) :
    (rawData.distTagsLatest = none →
      (transformDataForSummary rawData sourceUrl).latestVersion = "N/A" ∧
      (transformDataForSummary rawData sourceUrl).publishDateLatest = none) ∧
    ((transformDataForSummary rawData sourceUrl).publishDateLatest.isSome ↔
      ∃ lv t d, rawData.distTagsLatest = some lv ∧ lv ≠ "" ∧
        rawData.time = some t ∧ t.lookup lv = some d ∧ d ≠ "") := by
  refine ⟨fun h => ?_, ?_⟩
  · simp [transformDataForSummary, h, truthyStr]
  · rcases hlat : rawData.distTagsLatest with _ | lv
    · simp [transformDataForSummary, truthyStr, hlat]
    · by_cases hlv : lv = ""
      · subst hlv
        simp [transformDataForSummary, truthyStr, hlat]
      · rcases ht : rawData.time with _ | t
        · simp [transformDataForSummary, truthyStr, hlat, hlv, ht]
        · rcases hd : t.lookup lv with _ | d
          · simp [transformDataForSummary, truthyStr, hlat, hlv, ht, hd]
          · by_cases hdd : d = "" <;>
              simp [transformDataForSummary, truthyStr, hlat, hlv, ht, hd, hdd]

/-- A registry record with no latest dist-tag, for instantiating the
no-dist-tag branch. -/
def recordNoLatest : NpmRegistryPackageInfo :=
  { name := "pkg"
    distTagsLatest := none
    description := none
    time := some [("1.0.0", "2020-01-01T00:00:00.000Z")]
    license := none
    homepage := none
    repository := none
    maintainers := none
    keywords := none }

/-- C7 witness: the amended theorem applied to a concrete record with no
latest dist-tag. -/
theorem transformDataForSummary_latest_publishDate_witness :
    (transformDataForSummary recordNoLatest "u").latestVersion = "N/A" ∧
    (transformDataForSummary recordNoLatest "u").publishDateLatest = none :=
  (transformDataForSummary_latest_publishDate recordNoLatest "u").1 rfl

/-- A registry record whose license is an object whose type field holds the
empty string. -/
def recordEmptyLicenseType : NpmRegistryPackageInfo :=
  { name := "pkg"
    distTagsLatest := some "1.0.0"
    description := none
    time := none
    license := some (.obj (some "") none)
    homepage := none
    repository := none
    maintainers := none
    keywords := none }

/-- C8 counterexample: the claim "an object license with a type field maps to
that type string" fails on `recordEmptyLicenseType`: its license is an object
with a type field (the empty string), yet `transformDataForSummary` yields no
license at all rather than that type string, because the code tests the type
field for JS truthiness. -/
theorem transformDataForSummary_license_counterexample :
    recordEmptyLicenseType.license = some (LicenseVal.obj (some "") none) ∧
    (transformDataForSummary recordEmptyLicenseType "u").license = none :=
  ⟨rfl, rfl⟩

/-- C8 amended: license normalization in `transformDataForSummary` maps a
string license to itself, an object license with a non-empty type field to
that type string, and any other shape (absent, object without type, object
with empty type) to absent; the function is total, so it never throws, and
the characterization is exhaustive, so it never invents a value. -/
theorem transformDataForSummary_license_normalization
    (rawData : NpmRegistryPackageInfo) (sourceUrl : String) :
    (∀ s, rawData.license = some (.str s) →
      (transformDataForSummary rawData sourceUrl).license = some s) ∧
    (∀ ty u, rawData.license = some (.obj (some ty) u) → ty ≠ "" →
      (transformDataForSummary rawData sourceUrl).license = some ty) ∧
    (rawData.license = none →
      (transformDataForSummary rawData sourceUrl).license = none) ∧
    (∀ u, rawData.license = some (.obj none u) →
      (transformDataForSummary rawData sourceUrl).license = none) ∧
    (∀ u, rawData.license = some (.obj (some "") u) →
      (transformDataForSummary rawData sourceUrl).license = none) := by
  refine ⟨fun s h => ?_, fun ty u h hty => ?_, fun h => ?_, fun u h => ?_, fun u h => ?_⟩ <;>
    simp [transformDataForSummary, h, truthyStr]
  exact hty

/-- A registry record with a plain string license. -/
def recordStringLicense : NpmRegistryPackageInfo :=
  { name := "pkg"
    distTagsLatest := some "1.0.0"
    description := none
    time := none
    license := some (.str "MIT")
    homepage := none
    repository := none
    maintainers := none
    keywords := none }

/-- C8 witness: the amended theorem applied to a concrete record whose
license is the string "MIT". -/
theorem transformDataForSummary_license_normalization_witness :
    (transformDataForSummary recordStringLicense "u").license = some "MIT" :=
  (transformDataForSummary_license_normalization recordStringLicense "u").1 "MIT" rfl

/-- Looking up a key in an association list built by pairing each element of
a key list with a computed value finds the computed value, whenever the key
occurs in the key list. -/
theorem lookup_map_of_mem {α : Type} (f : String → α) (l : List String)
    (q : String) (hq : q ∈ l) :
    (l.map (fun p => (p, f p))).lookup q = some (f q) := by
  induction l with
  | nil => cases hq
  | cons a l ih =>
    by_cases h : q = a
    · subst h
      simp [List.lookup]
    · have hq2 : q ∈ l := by
        rcases List.mem_cons.mp hq with h1 | h1
        · exact absurd h1 h
        · exact h1
      have hne : (q == a) = false := beq_eq_false_iff_ne.mpr h
      simp [List.lookup, hne, ih hq2]

/-- Membership in the singleton-or-empty list a settled period contributes to
the final downloads mapping. -/
theorem mem_periodEntry (f : String → Option Nat) (q p : String) (c : Nat) :
    ((p, c) ∈ (match f q with | some n => [(q, n)] | none => [])) ↔
      (p = q ∧ f q = some c) := by
  rcases h : f q with _ | n <;> simp [h, Prod.ext_iff]
  exact fun _ => eq_comm

/-- Membership in the singleton-or-empty contribution one settled period
makes to the final downloads mapping. -/
theorem mem_periodMatch (o : Option (Option Nat)) (q p : String) (c : Nat) :
    ((p, c) ∈ (match o with | some (some n) => [(q, n)] | _ => [])) ↔
      (p = q ∧ o = some (some c)) := by
  rcases o with _ | o2
  · simp
  · rcases o2 with _ | n
    · simp
    · simp [Prod.ext_iff]
      exact fun _ => eq_comm

/-- C2: a period appears in the downloads mapping produced by
`fetchPackageDownloads` exactly when it was among the requested periods and
its single-period fetch settled to a count (periods whose fetch failed or
returned null settle to `none` here and are omitted, never surfaced as
zero); and when every requested period's fetch fails the aggregator still
returns a `McpDownloadsData`, merely with an empty downloads mapping — the
function is total, so the operation as a whole never fails. -/
theorem fetchPackageDownloads_partial_failure
    (fetchSingle : String → Option Nat) (decode : String → String)
    (encodedPackageName : String) (requestedPeriod : Option String) :
    (∀ p c, (p, c) ∈
        (fetchPackageDownloads fetchSingle decode encodedPackageName
          requestedPeriod).downloads ↔
      (p ∈ periodsToFetch requestedPeriod ∧ fetchSingle p = some c)) ∧
    ((∀ p ∈ periodsToFetch requestedPeriod, fetchSingle p = none) →
      (fetchPackageDownloads fetchSingle decode encodedPackageName
        requestedPeriod).downloads = []) := by
  constructor
  · intro p c
    rcases requestedPeriod with _ | p0
    · simp only [fetchPackageDownloads, periodsToFetch]
      rw [lookup_map_of_mem fetchSingle ["last-day", "last-week", "last-month"]
          "last-day" (by simp),
        lookup_map_of_mem fetchSingle ["last-day", "last-week", "last-month"]
          "last-week" (by simp),
        lookup_map_of_mem fetchSingle ["last-day", "last-week", "last-month"]
          "last-month" (by simp)]
      rw [List.mem_append, List.mem_append, mem_periodMatch, mem_periodMatch,
        mem_periodMatch]
      simp only [Option.some.injEq, List.mem_cons, List.not_mem_nil, or_false]
      constructor
      · rintro ((⟨rfl, h⟩ | ⟨rfl, h⟩) | ⟨rfl, h⟩)
        · exact ⟨Or.inl rfl, h⟩
        · exact ⟨Or.inr (Or.inl rfl), h⟩
        · exact ⟨Or.inr (Or.inr rfl), h⟩
      · rintro ⟨(rfl | rfl | rfl), h⟩
        · exact Or.inl (Or.inl ⟨rfl, h⟩)
        · exact Or.inl (Or.inr ⟨rfl, h⟩)
        · exact Or.inr ⟨rfl, h⟩
    · simp only [fetchPackageDownloads, periodsToFetch]
      rw [lookup_map_of_mem fetchSingle [p0] p0 (by simp), mem_periodMatch]
      simp only [Option.some.injEq, List.mem_cons, List.not_mem_nil, or_false]
      constructor
      · rintro ⟨rfl, h⟩
        exact ⟨rfl, h⟩
      · rintro ⟨rfl, h⟩
        exact ⟨rfl, h⟩
  · intro hall
    rcases requestedPeriod with _ | p0
    · have h1 := hall "last-day" (by simp [periodsToFetch])
      have h2 := hall "last-week" (by simp [periodsToFetch])
      have h3 := hall "last-month" (by simp [periodsToFetch])
      simp only [fetchPackageDownloads, periodsToFetch]
      rw [lookup_map_of_mem fetchSingle ["last-day", "last-week", "last-month"]
          "last-day" (by simp),
        lookup_map_of_mem fetchSingle ["last-day", "last-week", "last-month"]
          "last-week" (by simp),
        lookup_map_of_mem fetchSingle ["last-day", "last-week", "last-month"]
          "last-month" (by simp)]
      simp [h1, h2, h3]
    · have h1 := hall p0 (by simp [periodsToFetch])
      simp only [fetchPackageDownloads, periodsToFetch]
      rw [lookup_map_of_mem fetchSingle [p0] p0 (by simp)]
      simp [h1]

/-- C2 witness: the theorem applied with every fetch failing and no requested
period; the downloads mapping is empty and the call still returns. -/
theorem fetchPackageDownloads_partial_failure_witness :
    (fetchPackageDownloads (fun _ => none) (fun s => s) "express" none).downloads = [] :=
  (fetchPackageDownloads_partial_failure (fun _ => none) (fun s => s) "express" none).2
    (fun _ _ => rfl)

/-- C3: every failed registry fetch is classified by `fetchPackageData` into
exactly one of four distinctly coded `NpmApiError`s: HTTP 404 into the
not-found error, whose message contains the decoded package name; any other
HTTP status into the registry error carrying that status; a request with no
response into the no-response error; and any other pre-dispatch failure into
the request-setup error — never a bare uncoded failure, and the four code
strings are pairwise distinct. -/
theorem fetchPackageData_error_classification
    (decode : String → String) (encodedPackageName : String) :
    (fetchPackageData decode encodedPackageName (.errorResponse 404) =
        .error { message := "Package '" ++ decode encodedPackageName ++ "' not found on npmjs."
                 statusCode := some 404
                 code := some "NPM_PKG_NOT_FOUND" } ∧
      ∃ pre post, "Package '" ++ decode encodedPackageName ++ "' not found on npmjs." =
        pre ++ decode encodedPackageName ++ post) ∧
    (∀ status, status ≠ 404 →
      fetchPackageData decode encodedPackageName (.errorResponse status) =
        .error { message := "Failed to fetch package data from NPM Registry. Status: " ++ toString status
                 statusCode := some status
                 code := some "NPM_API_ERROR" }) ∧
    (fetchPackageData decode encodedPackageName .errorRequest =
      .error { message := "No response received from NPM Registry while fetching package data."
               statusCode := none
               code := some "NPM_API_NO_RESPONSE" }) ∧
    (∀ msg, fetchPackageData decode encodedPackageName (.errorSetup msg) =
      .error { message := "Error fetching package data: " ++ msg
               statusCode := none
               code := some "NPM_API_REQUEST_SETUP_ERROR" }) ∧
    List.Pairwise (fun a b => a ≠ b)
      ["NPM_PKG_NOT_FOUND", "NPM_API_ERROR", "NPM_API_NO_RESPONSE",
        "NPM_API_REQUEST_SETUP_ERROR"] := by
  refine ⟨⟨rfl, "Package '", "' not found on npmjs.", rfl⟩,
    fun status h => ?_, rfl, fun msg => rfl, by decide⟩
  simp [fetchPackageData, h]

/-- C3 witness: the classification applied with the identity decode to the
package name left-pad and a concrete non-404 status. -/
theorem fetchPackageData_error_classification_witness :
    fetchPackageData (fun s => s) "left-pad" (.errorResponse 500) =
      .error { message := "Failed to fetch package data from NPM Registry. Status: 500"
               statusCode := some 500
               code := some "NPM_API_ERROR" } :=
  (fetchPackageData_error_classification (fun s => s) "left-pad").2.1 500 (by decide)

/-- C5: when the project directory lacks package-lock.json, both the
npm_audit and the simulate_npm_audit_fix handler cases fail with the
precondition error before any subprocess is invoked (the invocation count is
0), and the error message names the missing package-lock.json file (and, as
the exact message shows, instructs the caller to generate it first). -/
theorem audit_lockfile_guard (auditEnv : AuditEnv) (fixEnv : FixSimEnv)
    (projectPath : String) :
    (auditEnv.lockfileExists = false →
      npmAuditCase auditEnv projectPath =
        (.error (lockfileMissingMessage "npm audit" projectPath), 0)) ∧
    (fixEnv.lockfileExists = false →
      simulateNpmAuditFixCase fixEnv projectPath =
        (.error (lockfileMissingMessage "npm audit fix" projectPath), 0)) ∧
    (∀ command, ∃ pre post, lockfileMissingMessage command projectPath =
      pre ++ "package-lock.json" ++ post) := by
  refine ⟨fun h => ?_, fun h => ?_,
    fun command => ⟨command ++ " requires a ",
      " file in the target directory '" ++ (projectPath ++
        "'. Please run 'npm install' or 'npm i --package-lock-only' in that directory first."),
      ?_⟩⟩
  · simp [npmAuditCase, h]
  · simp [simulateNpmAuditFixCase, h]
  · unfold lockfileMissingMessage
    simp only [String.append_assoc]
    rw [show (" requires a package-lock.json file in the target directory '" : String) =
      " requires a " ++ ("package-lock.json" ++ " file in the target directory '") from rfl]
    simp only [String.append_assoc]

/-- An audit environment whose lock-file check fails. -/
def auditEnvNoLock : AuditEnv :=
  { lockfileExists := false
    execOutcome := .success ""
    parse := fun _ => .error "ignored"
    now := "2026-01-01T00:00:00.000Z" }

/-- A fix-simulation environment whose lock-file check fails. -/
def fixEnvNoLock : FixSimEnv :=
  { lockfileExists := false
    execOutcome := .success ""
    parse := fun _ => .error "ignored"
    now := "2026-01-01T00:00:00.000Z" }

/-- C5 witness: both guards applied to concrete environments with the lock
file absent. -/
theorem audit_lockfile_guard_witness :
    npmAuditCase auditEnvNoLock "/proj" =
      (.error (lockfileMissingMessage "npm audit" "/proj"), 0) ∧
    simulateNpmAuditFixCase fixEnvNoLock "/proj" =
      (.error (lockfileMissingMessage "npm audit fix" "/proj"), 0) :=
  ⟨(audit_lockfile_guard auditEnvNoLock fixEnvNoLock "/proj").1 rfl,
    (audit_lockfile_guard auditEnvNoLock fixEnvNoLock "/proj").2.1 rfl⟩

/-- Folding addition of a projection over a list from an accumulator is the
accumulator plus the sum of the projected list. -/
theorem foldl_add_map_sum {α : Type} (f : α → Nat) (l : List α) (a : Nat) :
    l.foldl (fun acc x => acc + f x) a = a + (l.map f).sum := by
  induction l generalizing a with
  | nil => simp
  | cons x l ih => simp [List.foldl, ih, Nat.add_assoc]

/-- C6: every successfully produced `McpNpmAuditResult` satisfies the
invariant that `totalVulnerabilities` equals the sum of all severity-bucket
counts of its `bySeverity` summary, an absent bucket count contributing
zero. -/
theorem npmAudit_total_eq_sum (env : AuditEnv) (projectPath : String)
    (res : McpNpmAuditResult) (n : Nat)
    (h : npmAuditCase env projectPath = (.ok res, n)) :
    res.summary.totalVulnerabilities =
      (res.summary.bySeverity.map (fun kv => kv.2.getD 0)).sum := by
  unfold npmAuditCase at h
  by_cases hl : env.lockfileExists
  · simp only [hl] at h
    rcases he : env.execOutcome with out | ⟨stdout, stderr, msg⟩
    · rw [he] at h
      simp only at h
      rcases hp : env.parse out with e | aj
      · rw [hp] at h
        simp at h
      · rw [hp] at h
        simp only [Prod.mk.injEq, Except.ok.injEq] at h
        obtain ⟨rfl, -⟩ := h
        simp [foldl_add_map_sum]
    · rw [he] at h
      simp only at h
      rcases hs : truthyStr stdout with _ | out
      · rw [hs] at h
        simp at h
      · rw [hs] at h
        simp only at h
        rcases hp : env.parse out with e | aj
        · rw [hp] at h
          simp at h
        · rw [hp] at h
          simp only [Prod.mk.injEq, Except.ok.injEq] at h
          obtain ⟨rfl, -⟩ := h
          simp [foldl_add_map_sum]
  · simp [hl] at h

/-- A concrete parsed audit report with three severity buckets, one of them
with the count absent. -/
def auditReportSample : AuditJson :=
  { metadata := some
      { vulnerabilities := some [("high", some 2), ("low", none), ("critical", some 1)]
        auditReportCreatedAt := some "2026-02-03T04:05:06.000Z"
        npmVersion := some "10.8.2"
        nodeVersion := some "22.0.0" }
    vulnerabilities := some [("lodash",
      { name := some "lodash"
        installed := some "4.17.20"
        version := none
        severity := some "high"
        url := some "https://github.com/advisories/GHSA-x" })] }

/-- An audit environment in which the lock file exists, the subprocess
succeeds and parsing yields `auditReportSample`. -/
def auditEnvOk : AuditEnv :=
  { lockfileExists := true
    execOutcome := .success "raw"
    parse := fun _ => .ok auditReportSample
    now := "2026-01-01T00:00:00.000Z" }

/-- The audit result `npmAuditCase` produces from `auditEnvOk`. -/
def auditResultSample : McpNpmAuditResult :=
  { auditRunDate := "2026-02-03T04:05:06.000Z"
    npmVersion := "10.8.2"
    nodeVersion := "22.0.0"
    summary :=
      { totalVulnerabilities := 3
        bySeverity := [("high", some 2), ("low", none), ("critical", some 1)] }
    vulnerabilities := [{ package := "lodash"
                          version := "4.17.20"
                          severity := "high"
                          advisoryUrl := some "https://github.com/advisories/GHSA-x" }]
    rawAuditReport := auditReportSample }

/-- C6 witness: the invariant instantiated at the concrete run, whose
hypothesis is discharged by evaluation. -/
theorem npmAudit_total_eq_sum_witness :
    auditResultSample.summary.totalVulnerabilities =
      (auditResultSample.summary.bySeverity.map (fun kv => kv.2.getD 0)).sum :=
  npmAudit_total_eq_sum auditEnvOk "/proj" auditResultSample 1 (by rfl)

/-- C4 amended: the fix-simulation parse step parses from the first opening
brace of the captured output, ignoring any preamble before it (a successful
parse of that substring is the overall result, and a parse failure is
wrapped in a message carrying the parse error and exactly the first 500
characters of the raw output); output with no opening brace at all fails
with a distinct error whose message contains the could-not-find-JSON
diagnostic — but, as the counterexample shows, that message embeds the full
raw output, not only a bounded fragment. -/
theorem parseSimulationOutput_spec
    (parse : String → Except String SimulationJson) (projectPath raw : String) :
    (∀ i v, firstBraceIndex raw = some i → parse (jsSubstringFrom raw i) = .ok v →
      parseSimulationOutput parse projectPath raw = .ok v) ∧
    (∀ i m, firstBraceIndex raw = some i → parse (jsSubstringFrom raw i) = .error m →
      parseSimulationOutput parse projectPath raw =
        .error ("Failed to parse npm audit fix --dry-run JSON output from " ++ projectPath ++
          ". Error: " ++ m ++ ". Raw output fragment: " ++ jsSubstringTo raw 500 ++ "...")) ∧
    (firstBraceIndex raw = none →
      parseSimulationOutput parse projectPath raw =
        .error ("Failed to parse npm audit fix --dry-run JSON output from " ++ projectPath ++
          ". Error: " ++
          ("Could not find start of JSON object in npm audit fix --dry-run output from " ++
            projectPath ++ ". Raw output: " ++ raw) ++
          ". Raw output fragment: " ++ jsSubstringTo raw 500 ++ "...")) := by
  refine ⟨fun i v hb hp => ?_, fun i m hb hp => ?_, fun hb => ?_⟩
  · simp [parseSimulationOutput, hb, hp]
  · simp [parseSimulationOutput, hb, hp]
  · simp [parseSimulationOutput, hb]

/-- A concrete parsed fix-simulation output with every field absent. -/
def simulationSample : SimulationJson :=
  { actions := none
    added := none
    removed := none
    changed := none
    audited := none
    funding := none
    metadata := none }

/-- C4 witness: output with a five-character non-JSON preamble before the
payload is parsed successfully from the first brace. -/
theorem parseSimulationOutput_spec_witness :
    parseSimulationOutput (fun _ => .ok simulationSample) "/proj" "noise{}" =
      .ok simulationSample :=
  (parseSimulationOutput_spec (fun _ => .ok simulationSample) "/proj" "noise{}").1
    5 simulationSample rfl rfl

/-- A 501-character captured output containing no opening brace. -/
def rawNoBrace : String := String.mk (List.replicate 501 'a')

/-- The text the fix-simulation parse failure message places before the raw
output when no opening brace is found (project path /proj). -/
def c4messageHead : String :=
  "Failed to parse npm audit fix --dry-run JSON output from /proj. Error: Could not find start of JSON object in npm audit fix --dry-run output from /proj. Raw output: "

/-- The text that same message places after the raw output: the 500-character
fragment suffix. -/
def c4messageTail : String :=
  ". Raw output fragment: " ++ jsSubstringTo rawNoBrace 500 ++ "..."

set_option maxRecDepth 100000 in
/-- C4 counterexample: on a 501-character output with no opening brace, the
caller-visible error message is head ++ raw ++ tail — it embeds the entire
501-character raw output, refuting the claim that either failure retains
only a bounded fragment (on the order of the first few hundred characters)
and never the unbounded raw output. -/
theorem parseSimulationOutput_unbounded_counterexample :
    rawNoBrace.length = 501 ∧
    parseSimulationOutput (fun _ => .error "unused") "/proj" rawNoBrace =
      .error (c4messageHead ++ rawNoBrace ++ c4messageTail) := by
  exact ⟨rfl, rfl⟩

/-- A value that is not a string fails the `typeof` string check. -/
theorem asString_eq_none (o : Option JsVal) (h : ∀ s, o ≠ some (JsVal.str s)) :
    asString o = none := by
  rcases o with _ | v
  · rfl
  · rcases v with s | n | b | _ | _
    · exact absurd rfl (h s)
    all_goals rfl

/-- A value that is not a boolean fails the `typeof` boolean check. -/
theorem asBool_eq_none (o : Option JsVal) (h : ∀ b, o ≠ some (JsVal.boolean b)) :
    asBool o = none := by
  rcases o with _ | v
  · rfl
  · rcases v with s | n | b | _ | _
    · rfl
    · rfl
    · exact absurd rfl (h b)
    all_goals rfl

/-- C9: the `action` and `name` fields of a normalized fix action are plain
strings, so they are always present by construction; when the raw action
field is missing or not a string the normalized `action` is the literal
"unknown", and when neither the raw `module` nor the raw `name` field is a
string the normalized `name` is the literal "unknown" — whereas `version`,
`isMajor`, `oldVersion` and `path` are omitted whenever their source field
is missing or of the wrong type (for the latter two, also whenever the
`resolves` guard fails). -/
theorem normalizeFixAction_defaults (a : RawFixAction) :
    ((∀ s, a.action ≠ some (JsVal.str s)) →
      (normalizeFixAction a).action = "unknown") ∧
    ((∀ s, a.module ≠ some (JsVal.str s)) → (∀ s, a.name ≠ some (JsVal.str s)) →
      (normalizeFixAction a).name = "unknown") ∧
    ((∀ s, a.target ≠ some (JsVal.str s)) →
      (normalizeFixAction a).version = none) ∧
    ((∀ b, a.isMajor ≠ some (JsVal.boolean b)) →
      (normalizeFixAction a).isMajor = none) ∧
    (firstResolve a = none →
      (normalizeFixAction a).oldVersion = none ∧
      (normalizeFixAction a).path = none) ∧
    (∀ r, firstResolve a = some r →
      ((∀ s, r.fromVal ≠ some (JsVal.str s)) →
        (normalizeFixAction a).oldVersion = none) ∧
      ((∀ s, r.pathVal ≠ some (JsVal.str s)) →
        (normalizeFixAction a).path = none)) := by
  refine ⟨fun h => ?_, fun h1 h2 => ?_, fun h => ?_, fun h => ?_,
    fun h => ?_, fun r hr => ⟨fun h => ?_, fun h => ?_⟩⟩
  · simp [normalizeFixAction, asString_eq_none _ h]
  · simp [normalizeFixAction, asString_eq_none _ h1, asString_eq_none _ h2]
  · simp [normalizeFixAction, asString_eq_none _ h]
  · simp [normalizeFixAction, asBool_eq_none _ h]
  · simp [normalizeFixAction, h]
  · simp [normalizeFixAction, hr, asString_eq_none _ h]
  · simp [normalizeFixAction, hr, asString_eq_none _ h]

/-- A raw action whose `action` field is a number, whose `name` field is
null and whose `module`, `target` fields are absent, with an empty
`resolves` array and a string-typed `isMajor`. -/
def rawActionSample : RawFixAction :=
  { action := some (.num 3)
    module := none
    name := some .nullVal
    target := none
    isMajor := some (.str "yes")
    resolves := some [] }

/-- C9 witness: the defaults applied to `rawActionSample`. -/
theorem normalizeFixAction_defaults_witness :
    (normalizeFixAction rawActionSample).action = "unknown" ∧
    (normalizeFixAction rawActionSample).name = "unknown" ∧
    (normalizeFixAction rawActionSample).version = none ∧
    (normalizeFixAction rawActionSample).isMajor = none ∧
    (normalizeFixAction rawActionSample).oldVersion = none ∧
    (normalizeFixAction rawActionSample).path = none := by
  have h := normalizeFixAction_defaults rawActionSample
  exact ⟨h.1 (by simp [rawActionSample]),
    h.2.1 (by simp [rawActionSample]) (by simp [rawActionSample]),
    h.2.2.1 (by simp [rawActionSample]),
    h.2.2.2.1 (by simp [rawActionSample]),
    (h.2.2.2.2.1 (by rfl)).1,
    (h.2.2.2.2.1 (by rfl)).2⟩

/-- C10: in audit-report flattening, a per-package record with neither an
`installed` nor a `version` string yields the empty string as its version —
a present field, since the entry's version is a plain string — while a
missing severity becomes "unknown" and a missing advisory URL is omitted. -/
theorem flattenVulnerability_defaults (pkgName : String)
    (v : RawAuditVulnerabilityValue) :
    (v.installed = none → v.version = none →
      (flattenVulnerability pkgName v).version = "") ∧
    (v.severity = none → (flattenVulnerability pkgName v).severity = "unknown") ∧
    (v.url = none → (flattenVulnerability pkgName v).advisoryUrl = none) := by
  refine ⟨fun h1 h2 => ?_, fun h => ?_, fun h => ?_⟩
  · simp [flattenVulnerability, jsOrString, truthyStr, h1, h2]
  · simp [flattenVulnerability, truthyStr, h]
  · simp [flattenVulnerability, truthyStr, h]

/-- A raw per-package vulnerability value with every field absent. -/
def rawVulnerabilitySample : RawAuditVulnerabilityValue :=
  { name := none
    installed := none
    version := none
    severity := none
    url := none }

/-- C10 witness: the defaults applied to `rawVulnerabilitySample`. -/
theorem flattenVulnerability_defaults_witness :
    (flattenVulnerability "minimist" rawVulnerabilitySample).version = "" ∧
    (flattenVulnerability "minimist" rawVulnerabilitySample).severity = "unknown" ∧
    (flattenVulnerability "minimist" rawVulnerabilitySample).advisoryUrl = none := by
  have h := flattenVulnerability_defaults "minimist" rawVulnerabilitySample
  exact ⟨h.1 rfl rfl, h.2.1 rfl, h.2.2 rfl⟩
